import Mathlib

/-!
Verification of the QCoDeS instrument drivers in this repository.

The development shallowly embeds two drivers:

* `Rigol_DS4000.py` — the oscilloscope waveform-retrieval path
  (`ScopeArray.prepare_curvedata`, `ScopeArray.get_raw`,
  `ScopeArray._validate_strip_block`, `ScopeArray.get_preamble`).
  Bytes are modelled as `List Nat` (each entry a byte value), Python floats
  as `ℚ`, and the VISA connection as a `Device` record mapping each poll
  index to the instrument's response.  Instrument traffic is recorded as a
  list of `IOEvent`s in the order the Python code performs it.

* `Keithley_3706A.py` — the matrix-switch specifier validation and the
  channel close/open/reset operations.  The instrument-reported inventory
  (installed cards per slot, interlock states, forbidden-channel list) is
  modelled as a `KeithleyConfig` record standing for the instrument's
  responses to the corresponding queries.
-/

/-- One instrument-communication event: a query (`ask`), a command
(`write`), or a raw binary read from the VISA handle (`readRaw`). -/
inductive IOEvent where
  | ask (cmd : String)
  | write (cmd : String)
  | readRaw
  deriving DecidableEq, Repr

/-- Decimal digits of `n`, most significant first, as characters.  Fuel-based
so that it is structural; `natToString` supplies fuel `n + 1`, which is
always sufficient. -/
def natToDigitsAux : Nat → Nat → List Char
  | 0, _ => []
  | fuel + 1, n =>
    if n < 10 then [Char.ofNat (48 + n)]
    else natToDigitsAux fuel (n / 10) ++ [Char.ofNat (48 + n % 10)]

/-- Model of Python `str(n)` for a natural number `n`. -/
def natToString (n : Nat) : String :=
  String.mk (natToDigitsAux (n + 1) n)

/-- Model of Python `s.split(",")` on the character list of `s`:
splitting on a single comma, preserving empty fields (`"".split(",") = [""]`). -/
def splitCommaChars : List Char → List (List Char)
  | [] => [[]]
  | c :: rest =>
    let r := splitCommaChars rest
    if c = ',' then [] :: r
    else
      match r with
      | [] => [[c]]
      | h :: t => (c :: h) :: t

/-- Model of Python `s.split(",")`. -/
def pySplitComma (s : String) : List String :=
  (splitCommaChars s.toList).map (fun cs => String.mk cs)

/-- Whether a byte is ASCII whitespace, the class stripped by Python
`bytes.strip()` (space, tab, newline, carriage return, vertical tab,
form feed). -/
def isSpaceByte (b : Nat) : Bool :=
  b = 32 || b = 9 || b = 10 || b = 13 || b = 11 || b = 12

/-- Whether a byte is an ASCII decimal digit (matched by `\d` in the
header regular expression). -/
def isDigitByte (b : Nat) : Bool :=
  48 ≤ b && b ≤ 57

/-- Model of Python `bytes.strip()`: remove ASCII whitespace from both ends. -/
def stripBytes (l : List Nat) : List Nat :=
  ((l.dropWhile isSpaceByte).reverse.dropWhile isSpaceByte).reverse

/-- Numeric value of a string of ASCII digit bytes, as computed by Python
`int(...)` on the nine header digits. -/
def digitsVal (l : List Nat) : Nat :=
  l.foldl (fun acc b => acc * 10 + (b - 48)) 0

/-- The nine-digit zero-padded decimal representation of `n` (as digit
bytes): `padDigits k n` is the last `k` decimal digits of `n`, zero-padded
to width `k`. -/
def padDigits : Nat → Nat → List Nat
  | 0, _ => []
  | k + 1, n => padDigits k (n / 10) ++ [48 + n % 10]

/-- The byte block header `#9` followed by the nine-digit zero-padded
declared length `n`, as written by the DS4000 (byte 35 is `#`, byte 57
is `9`). -/
def lengthHeader (n : Nat) : List Nat :=
  35 :: 57 :: padDigits 9 n

/-- Model of `ScopeArray._validate_strip_block`.  The Python code decodes
the first 11 bytes as ASCII (a non-ASCII byte raises `UnicodeDecodeError`),
matches them against `#9(\d{9})`, strips the remainder with `bytes.strip()`,
and returns it iff its length equals the declared length; every other case
raises `ValueError("Malformed data")`. -/
def _validate_strip_block (block : List Nat) : Except String (List Nat) :=
  if ¬ ((block.take 11).all fun b => decide (b < 128)) then
    Except.error "UnicodeDecodeError"
  else if 11 ≤ block.length ∧ block.take 2 = [35, 57] ∧
      ((block.drop 2).take 9).all isDigitByte then
    let size := digitsVal ((block.drop 2).take 9)
    let block_nh := stripBytes (block.drop 11)
    if size = block_nh.length then Except.ok block_nh
    else Except.error "Malformed data"
  else Except.error "Malformed data"

/-- Model of the Python namedtuple `PreambleNT` filled by
`ScopeArray.get_preamble` from the comma-separated `:WAVeform:PREamble?`
response; each numeric field is modelled as a rational. -/
structure Preamble where
  format : ℚ
  mode : ℚ
  points : ℚ
  count : ℚ
  xincrement : ℚ
  xorigin : ℚ
  xreference : ℚ
  yincrement : ℚ
  yorigin : ℚ
  yreference : ℚ
  deriving DecidableEq

/-- Construction of the preamble record from the list of parsed numeric
fields, modelling `PreambleNT(*preamble_num)`: any arity other than ten
raises a `TypeError` in Python, modelled as `none`. -/
def parsePreamble : List ℚ → Option Preamble
  | [f, m, p, c, xi, xo, xr, yi, yo, yr] =>
    some ⟨f, m, p, c, xi, xo, xr, yi, yo, yr⟩
  | _ => none

/-- Model of the oscilloscope side of the VISA connection, giving the
instrument's response to each query that `prepare_curvedata` / `get_raw`
performs: the `:WAVeform:STATus?` answer and the raw data block of the
`i`-th polling iteration, the single data block of the display-mode read,
and the parsed numeric fields of the `:WAVeform:PREamble?` answer. -/
structure Device where
  statusAt : Nat → String
  blockAt : Nat → List Nat
  displayBlock : List Nat
  preambleResp : List ℚ

/-- The mutable attributes of a `ScopeArray` parameter that the capture
path reads and writes. -/
structure ScopeState where
  channel : Nat
  raw : Bool
  max_read_step : Nat
  trace_ready : Bool
  preamble : Preamble
  shape : Nat
  setpoints : List ℚ
  deriving DecidableEq

/-- The state produced by `ScopeArray.__init__`: `max_read_step = 50`,
`trace_ready = False`, initial shape `(1400,)`; the preamble attribute is
unset in Python, modelled by an all-zero record (unreachable before
`prepare_curvedata` because `trace_ready` is false). -/
def scopeArrayInitState (channel : Nat) (raw : Bool) : ScopeState :=
  { channel := channel
    raw := raw
    max_read_step := 50
    trace_ready := false
    preamble := ⟨0, 0, 0, 0, 0, 0, 0, 0, 0, 0⟩
    shape := 1400
    setpoints := [] }

/-- Errors raised by the capture path: the `RigolDS4000TraceNotReady`
precondition error and Python `ValueError`s with their message. -/
inductive ScopeError where
  | traceNotReady
  | valueError (msg : String)
  deriving DecidableEq, Repr

/-- Python `int(q)` for a float modelled as a rational: truncation toward
zero. -/
def pyInt (q : ℚ) : Int :=
  if 0 ≤ q.num then Int.ofNat (q.num.toNat / q.den)
  else - Int.ofNat ((- q.num).toNat / q.den)

/-- Model of `numpy.linspace(start, stop, num)`: `num` evenly spaced
samples from `start` to `stop` inclusive. -/
def linspace (start stop : ℚ) (num : Nat) : List ℚ :=
  if num = 0 then []
  else if num = 1 then [start]
  else (List.range num).map fun i =>
    start + (stop - start) * (i : ℚ) / ((num : ℚ) - 1)

/-- Result of `prepare_curvedata`: the Python return/raise outcome, the
updated parameter state, and the instrument traffic performed. -/
structure PrepareResult where
  result : Except String Unit
  state : ScopeState
  io : List IOEvent

/-- Model of `ScopeArray.prepare_curvedata` (with `get_preamble` inlined):
select the waveform mode, fetch a fresh preamble, recompute the time-axis
setpoints and the trace shape from it, and set the ready flag.  A preamble
of the wrong arity raises a `TypeError`, leaving the state unchanged. -/
def prepare_curvedata (st : ScopeState) (dev : Device) : PrepareResult :=
  let io0 :=
    if st.raw then [IOEvent.write ":STOP", IOEvent.write ":WAVeform:MODE RAW"]
    else [IOEvent.write ":WAVeform:MODE NORM"]
  let io := io0 ++ [IOEvent.ask ":WAVeform:PREamble?"]
  match parsePreamble dev.preambleResp with
  | none => ⟨Except.error "TypeError", st, io⟩
  | some p =>
    let pts := (pyInt p.points).toNat
    ⟨Except.ok (), { st with
        preamble := p
        setpoints := linspace p.xorigin (p.xorigin + p.xincrement * p.points) pts
        shape := pts
        trace_ready := true }, io⟩

/-- The first comma-separated field of the `:WAVeform:STATus?` response at
polling iteration `i`, as computed by `.split(",")[0]` in `get_raw`. -/
def statusHead (dev : Device) (i : Nat) : String :=
  (pySplitComma (dev.statusAt i)).headD ""

/-- The stripped payload of the data block at polling iteration `i`
(meaningful when the block validates). -/
def strippedAt (dev : Device) (i : Nat) : List Nat :=
  match _validate_strip_block (dev.blockAt i) with
  | Except.ok b => b
  | Except.error _ => []

/-- The polling loop of `get_raw` in raw mode.  Iteration `i` asks the
status, reads and validates one data block, appends it to the accumulator,
and stops successfully if the status field was `IDLE`; running out of the
iteration budget raises `ValueError("Communication error")`.  Returns the
accumulated bytes (or the error) together with the loop's instrument
traffic. -/
def readLoop (dev : Device) : Nat → Nat → List Nat →
    Except ScopeError (List Nat) × List IOEvent
  | 0, _, _ => (Except.error (ScopeError.valueError "Communication error"), [])
  | fuel + 1, i, acc =>
    let io0 := [IOEvent.ask ":WAVeform:STATus?", IOEvent.write ":WAVeform:DATA?",
      IOEvent.readRaw]
    match _validate_strip_block (dev.blockAt i) with
    | Except.error e => (Except.error (ScopeError.valueError e), io0)
    | Except.ok chunk =>
      if statusHead dev i = "IDLE" then
        (Except.ok (acc ++ chunk), io0 ++ [IOEvent.write ":WAVeform:END"])
      else
        let rest := readLoop dev fuel (i + 1) (acc ++ chunk)
        (rest.1, io0 ++ rest.2)

/-- The conversion of the accumulated byte buffer into voltages performed
at the end of `get_raw`: promote each byte to a float
(`np.frombuffer(..., dtype=np.uint8).astype(float)`) and apply the
vectorised expression `(data_raw - p.yreference - p.yorigin) * p.yincrement`. -/
def convertData (p : Preamble) (bin : List Nat) : List ℚ :=
  let data_raw := bin.map fun b => (b : ℚ)
  ((data_raw.map fun x => x - p.yreference).map fun x => x - p.yorigin).map
    fun x => x * p.yincrement

/-- Result of `get_raw`: the returned data or the raised error, the updated
parameter state, and the instrument traffic performed. -/
structure GetRawResult where
  result : Except ScopeError (List ℚ)
  state : ScopeState
  io : List IOEvent

/-- Model of `ScopeArray.get_raw`.  Without the ready flag it raises
`RigolDS4000TraceNotReady` before touching the instrument; otherwise it
consumes the flag, configures format and source, and either runs the
raw-mode polling loop (bounded by `max_read_step`) or performs the single
display-mode block read, finally converting the bytes via the stored
preamble. -/
def get_raw (st : ScopeState) (dev : Device) : GetRawResult :=
  if st.trace_ready then
    let st' := { st with trace_ready := false }
    let io0 := [IOEvent.write ":WAVeform:FORMat BYTE",
      IOEvent.write (":WAVeform:SOURce CHAN" ++ natToString st'.channel)]
    if st'.raw then
      let io1 := io0 ++ [IOEvent.write (":WAVeform:POINts " ++ natToString st'.shape),
        IOEvent.write ":WAVeform:RESet", IOEvent.write ":WAVeform:BEGin"]
      let loop := readLoop dev st'.max_read_step 0 []
      match loop.1 with
      | Except.error e => ⟨Except.error e, st', io1 ++ loop.2⟩
      | Except.ok bin => ⟨Except.ok (convertData st'.preamble bin), st', io1 ++ loop.2⟩
    else
      let io1 := io0 ++ [IOEvent.write ":WAVeform:DATA?", IOEvent.readRaw]
      match _validate_strip_block dev.displayBlock with
      | Except.error e => ⟨Except.error (ScopeError.valueError e), st', io1⟩
      | Except.ok bin => ⟨Except.ok (convertData st'.preamble bin), st', io1⟩
  else
    ⟨Except.error ScopeError.traceNotReady, st, []⟩

/-! ### Block-framing lemmas (`_validate_strip_block`) -/

/-- Concatenation of the stripped data blocks read at polling iterations
`i, i+1, ..., i+n-1`; `chunksConcat dev 0 (k+1)` is the accumulator built
by `k+1` iterations of the `get_raw` polling loop. -/
def chunksConcat (dev : Device) (i : Nat) : Nat → List Nat
  | 0 => []
  | n + 1 => strippedAt dev i ++ chunksConcat dev (i + 1) n

/-- Concrete device used to instantiate the scope theorems: immediately
idle status, a fixed valid two-byte block, and an all-zero ten-field
preamble. -/
def devW : Device :=
  { statusAt := fun _ => "IDLE,0"
    blockAt := fun _ => lengthHeader 2 ++ [1, 2]
    displayBlock := lengthHeader 2 ++ [1, 2]
    preambleResp := [0, 0, 0, 0, 0, 0, 0, 0, 0, 0] }

/-- Concrete device whose status becomes idle on the second polling
iteration. -/
def devC3 : Device :=
  { statusAt := fun i => if i = 0 then "READ,10" else "IDLE,0"
    blockAt := fun _ => lengthHeader 2 ++ [1, 2]
    displayBlock := []
    preambleResp := [] }

/-- Concrete prepared raw-mode scope state. -/
def stC3 : ScopeState :=
  { channel := 1
    raw := true
    max_read_step := 50
    trace_ready := true
    preamble := ⟨0, 0, 0, 0, 0, 0, 0, 1, 0, 0⟩
    shape := 4
    setpoints := [] }

/-! ### Keithley 3706A embedding -/

/-- One installed switch card as reported by `slot[i].idn` together with
the row/column counts reported by `slot[i].rows.matrix` and
`slot[i].columns.matrix`. -/
structure SwitchCard where
  slot_no : Nat
  rows : Nat
  columns : Nat
  deriving DecidableEq, Repr

/-- The per-slot interlock state reported by `slot[i].interlock.state`:
`nil` or the integers 0–3, the exact keys of the `interlock_status` table
in `get_interlock_state`. -/
inductive InterlockState where
  | nil
  | s0
  | s1
  | s2
  | s3
  deriving DecidableEq, Repr

/-- The instrument-side inventory the driver queries: which of slots 1–6
holds a card (with its row and column counts), each slot's interlock
state, and the `channel.getforbidden` response. -/
structure KeithleyConfig where
  slotCard : Nat → Option (Nat × Nat)
  interlock : Nat → InterlockState
  forbidden : String

/-- Errors raised by the switch driver: `Keithley3706AInvalidValue`,
`Keithley3706AUnknownOrEmptySlot`, and the `StopIteration` that
`next(...)` would raise if no interlock entry matched. -/
inductive KError where
  | invalidValue (msg : String)
  | unknownOrEmptySlot (msg : String)
  | stopIteration
  deriving DecidableEq, Repr

/-- Model of `get_switch_cards`: scan slots 1–6 and keep the installed
cards in slot order. -/
def get_switch_cards (cfg : KeithleyConfig) : List SwitchCard :=
  (List.range' 1 6).filterMap fun i =>
    (cfg.slotCard i).map fun rc => ⟨i, rc.1, rc.2⟩

/-- Model of `_get_slot_ids`: the installed slot numbers as strings. -/
def _get_slot_ids (cfg : KeithleyConfig) : List String :=
  (get_switch_cards cfg).map fun c => natToString c.slot_no

/-- Model of `_get_slot_names`. -/
def _get_slot_names (cfg : KeithleyConfig) : List String :=
  (_get_slot_ids cfg).map fun s => "slot" ++ s

/-- Model of `_get_number_of_rows` (the `slot[i].rows.matrix` responses). -/
def _get_number_of_rows (cfg : KeithleyConfig) : List Nat :=
  (get_switch_cards cfg).map SwitchCard.rows

/-- Model of `_get_number_of_columns`. -/
def _get_number_of_columns (cfg : KeithleyConfig) : List Nat :=
  (get_switch_cards cfg).map SwitchCard.columns

/-- Model of `_get_rows`: per slot, the row names `str(1) .. str(rows)`. -/
def _get_rows (cfg : KeithleyConfig) : List (List String) :=
  (_get_number_of_rows cfg).map fun item => (List.range' 1 item).map natToString

/-- Zero-padded column name, as built by `_get_columns`: `"0" + str(i)`
for `i < 10`, `str(i)` otherwise. -/
def pad2 (i : Nat) : String :=
  if i < 10 then "0" ++ natToString i else natToString i

/-- Model of `_get_columns`. -/
def _get_columns (cfg : KeithleyConfig) : List (List String) :=
  (_get_number_of_columns cfg).map fun item => (List.range' 1 item).map pad2

/-- The matrix-channel tokens of one installed card:
slot digit ++ row name ++ zero-padded column name, rows outer and columns
inner exactly as `itertools.product(slot, row_list[i], column_list[i])`
enumerates them.  (`slot` is a one-character string for slots 1–6, so
iterating it as Python does over its characters yields the slot digit.) -/
def cardChannels (c : SwitchCard) : List String :=
  (List.range' 1 c.rows).flatMap fun r =>
    (List.range' 1 c.columns).map fun col =>
      natToString c.slot_no ++ natToString r ++ pad2 col

/-- Model of `get_channels`: `slot_id`, `row_list` and `column_list` are
three parallel lists indexed by the same card enumeration, so the
`enumerate` loop of the source is the per-card product. -/
def get_channels (cfg : KeithleyConfig) : List String :=
  (get_switch_cards cfg).flatMap cardChannels

/-- The tokens produced by `get_channels_by_slot(slot_no)`.  Faithful to
the source's quirk of always using `row_list[0]` and `column_list[0]`,
i.e. the first installed card's row/column counts, whatever the slot. -/
def channelsBySlotTokens (cfg : KeithleyConfig) (slot_no : Nat) : List String :=
  ((_get_rows cfg).headD []).flatMap fun r =>
    ((_get_columns cfg).headD []).map fun col =>
      natToString slot_no ++ r ++ col

/-- Model of `get_channels_by_slot`, including its unknown-slot error. -/
def get_channels_by_slot (cfg : KeithleyConfig) (slot_no : Nat) :
    Except KError (List String) :=
  if natToString slot_no ∈ _get_slot_ids cfg then
    Except.ok (channelsBySlotTokens cfg slot_no)
  else
    Except.error (KError.unknownOrEmptySlot "Please provide a valid slot identifier.")

/-- All ordered pairs `(x, y)` with `x` occurring before `y`, the model of
`itertools.combinations(l, 2)`. -/
def combinations2 {α : Type} : List α → List (α × α)
  | [] => []
  | x :: xs => (xs.map fun y => (x, y)) ++ combinations2 xs

/-- Model of `_get_channel_ranges`: for each installed slot id `i`, join
every combination of two `get_channels_by_slot(int(i))` tokens with a
colon (`int(str(n)) = n`, and the call always succeeds because `i` is an
installed slot id). -/
def _get_channel_ranges (cfg : KeithleyConfig) : List String :=
  (get_switch_cards cfg).flatMap fun c =>
    (combinations2 (channelsBySlotTokens cfg c.slot_no)).map fun p =>
      p.1 ++ ":" ++ p.2

/-- The fixed relay-number table of `get_analog_backplane_specifiers`. -/
def backplaneRelayNumbers : List String :=
  ["11", "12", "13", "14", "15", "16"]

/-- Model of `get_analog_backplane_specifiers`: slot id ++ `"9"` ++ relay
number, slots outer and relay numbers inner. -/
def get_analog_backplane_specifiers (cfg : KeithleyConfig) : List String :=
  (_get_slot_ids cfg).flatMap fun s =>
    backplaneRelayNumbers.map fun r => s ++ "9" ++ r

/-- The tuple `(*ch, *ch_range, *slots, *backplanes)` that `_validator`
checks membership against, in source order, with
`slots = ["allslots", *self._get_slot_names()]`. -/
def legalTokens (cfg : KeithleyConfig) : List String :=
  get_channels cfg ++ _get_channel_ranges cfg ++
    ("allslots" :: _get_slot_names cfg) ++ get_analog_backplane_specifiers cfg

/-- Model of `Keithley3706A._validator`: every comma-separated element of
the specifier must be a legal token. -/
def _validator (cfg : KeithleyConfig) (val : String) : Bool :=
  (pySplitComma val).all fun element => decide (element ∈ legalTokens cfg)

/-- The messages of the `interlock_status` table in `get_interlock_state`
(the `s2` message reproduces the source's wording verbatim). -/
def interlockMessage : InterlockState → String
  | InterlockState.nil =>
    "No card is installed or the installed card does not support interlocks"
  | InterlockState.s0 => "Interlocks 1 and 2 are disengaged on the card"
  | InterlockState.s1 =>
    "Interlock 1 is engaged, interlock 2 (if it exists) is disengaged"
  | InterlockState.s2 => "Interlock 2 in engaged, interlock 1 is disengaged"
  | InterlockState.s3 => "Both interlock 1 and 2 are engaged"

/-- Model of `get_interlock_state`: one `(slot_no, state message)` entry
per installed card. -/
def get_interlock_state (cfg : KeithleyConfig) : List (String × String) :=
  (get_switch_cards cfg).map fun c =>
    (natToString c.slot_no, interlockMessage (cfg.interlock c.slot_no))

/-- The test `channel_id[1] == "9"`, as a function of the characters. -/
def sndCharIs9 (s : String) : Bool :=
  match s.toList with
  | _ :: c :: _ => c == '9'
  | _ => false

/-- Model of `_is_backplane_channel`: a channel id that is not exactly
four characters raises `Keithley3706AInvalidValue`; otherwise the id is a
backplane relay iff its second character is `9`. -/
def _is_backplane_channel (channel_id : String) : Except KError Bool :=
  if channel_id.length ≠ 4 then
    Except.error (KError.invalidValue (channel_id ++ " is not a valid channel id"))
  else
    Except.ok (sndCharIs9 channel_id)

/-- `channel[0]` as a one-character string. -/
def firstCharStr (s : String) : String :=
  match s.toList with
  | c :: _ => String.mk [c]
  | [] => ""

/-- The `UserWarning` text for closing forbidden channels. -/
def forbiddenWarnMsg : String :=
  "You are attempting to close channels that are forbidden to close."

/-- The `UserWarning` text emitted by `_warn_on_disengaged_interlocks`. -/
def interlockWarnMsg (slot ch : String) : String :=
  "The hardware interlocks in Slot " ++ slot ++
    " are disengaged. The analog backplane relay " ++ ch ++
    " cannot be energized."

/-- The loop body of `_warn_on_disengaged_interlocks` over the
comma-separated elements: classify each element via
`_is_backplane_channel` (whose error aborts the loop), look up the
element's slot in the interlock states (a missing entry would be a
`StopIteration`), and collect a warning when both interlocks are
disengaged.  Returns the warnings emitted before any error, and the
error if one was raised. -/
def warnLoopAux (states : List (String × String)) :
    List String → List String × Option KError
  | [] => ([], none)
  | ch :: rest =>
    match _is_backplane_channel ch with
    | Except.error e => ([], some e)
    | Except.ok false => warnLoopAux states rest
    | Except.ok true =>
      match states.find? (fun st => st.1 == firstCharStr ch) with
      | none => ([], some KError.stopIteration)
      | some st =>
        let w := if st.2 = interlockMessage InterlockState.s0
                 then [interlockWarnMsg st.1 ch] else []
        let rest' := warnLoopAux states rest
        (w ++ rest'.1, rest'.2)

/-- Model of `_warn_on_disengaged_interlocks`. -/
def _warn_on_disengaged_interlocks (cfg : KeithleyConfig) (val : String) :
    List String × Option KError :=
  warnLoopAux (get_interlock_state cfg) (pySplitComma val)

/-- A single apostrophe, used inside the command templates. -/
def squote : String := String.mk [Char.ofNat 39]

/-- The `channel.close` command template. -/
def closeCmd (val : String) : String :=
  "channel.close(" ++ squote ++ val ++ squote ++ ")"

/-- The `channel.open` command template. -/
def openCmd (val : String) : String :=
  "channel.open(" ++ squote ++ val ++ squote ++ ")"

/-- The `channel.reset` command template. -/
def resetCmd (val : String) : String :=
  "channel.reset(" ++ squote ++ val ++ squote ++ ")"

/-- The `channel.exclusiveclose` command template. -/
def exclusiveCloseCmd (val : String) : String :=
  "channel.exclusiveclose(" ++ squote ++ val ++ squote ++ ")"

/-- The `channel.getforbidden` query template. -/
def getForbiddenCmd (val : String) : String :=
  "channel.getforbidden(" ++ squote ++ val ++ squote ++ ")"

/-- The invalid-specifier message used by `reset_channel`, `open_channel`,
`set_forbidden_channels` and `get_forbidden_channels`. -/
def invalidSpecifierMsg1 (val : String) : String :=
  val ++ " is not a valid specifier. The specifier should be channels, " ++
    "channel ranges, slots, backplane relays or \"allslots\"."

/-- The invalid-specifier message used by `close_channel` and
`exclusive_close`. -/
def invalidSpecifierMsg2 (val : String) : String :=
  val ++ " is not a valid specifier. The specifier should be channels " ++
    "or channel ranges and associated backplane relays."

/-- The queries performed by one `get_switch_cards` call
(`slot[i].idn` for `i` in 1–6). -/
def get_switch_cards_io : List IOEvent :=
  (List.range' 1 6).map fun i =>
    IOEvent.ask ("slot[" ++ natToString i ++ "].idn")

/-- Queries of `_get_slot_ids` (it just calls `get_switch_cards`). -/
def _get_slot_ids_io : List IOEvent := get_switch_cards_io

/-- Queries of `_get_slot_names`. -/
def _get_slot_names_io : List IOEvent := _get_slot_ids_io

/-- Queries of `_get_number_of_rows`: re-query the slot ids, then ask
`slot[i].rows.matrix` per installed slot. -/
def _get_number_of_rows_io (cfg : KeithleyConfig) : List IOEvent :=
  _get_slot_ids_io ++
    (_get_slot_ids cfg).map fun s => IOEvent.ask ("slot[" ++ s ++ "].rows.matrix")

/-- Queries of `_get_number_of_columns`. -/
def _get_number_of_columns_io (cfg : KeithleyConfig) : List IOEvent :=
  _get_slot_ids_io ++
    (_get_slot_ids cfg).map fun s => IOEvent.ask ("slot[" ++ s ++ "].columns.matrix")

/-- Queries of `_get_rows`. -/
def _get_rows_io (cfg : KeithleyConfig) : List IOEvent :=
  _get_number_of_rows_io cfg

/-- Queries of `_get_columns`. -/
def _get_columns_io (cfg : KeithleyConfig) : List IOEvent :=
  _get_number_of_columns_io cfg

/-- Queries of one `get_channels` call. -/
def get_channels_io (cfg : KeithleyConfig) : List IOEvent :=
  _get_slot_ids_io ++ _get_rows_io cfg ++ _get_columns_io cfg

/-- Queries of one (successful) `get_channels_by_slot` call. -/
def get_channels_by_slot_io (cfg : KeithleyConfig) : List IOEvent :=
  _get_slot_ids_io ++ _get_rows_io cfg ++ _get_columns_io cfg

/-- Queries of `_get_channel_ranges`. -/
def _get_channel_ranges_io (cfg : KeithleyConfig) : List IOEvent :=
  _get_slot_ids_io ++
    (_get_slot_ids cfg).flatMap fun _ => get_channels_by_slot_io cfg

/-- Queries of `get_analog_backplane_specifiers`. -/
def get_analog_backplane_specifiers_io : List IOEvent := _get_slot_ids_io

/-- Queries of one `_validator` call: channels, ranges, slot names and
backplane specifiers are each recomputed from the instrument. -/
def _validator_io (cfg : KeithleyConfig) : List IOEvent :=
  get_channels_io cfg ++ _get_channel_ranges_io cfg ++ _get_slot_names_io ++
    get_analog_backplane_specifiers_io

/-- Queries of `get_interlock_state`. -/
def _get_interlock_state_io (cfg : KeithleyConfig) : List IOEvent :=
  _get_slot_ids_io ++
    (_get_slot_ids cfg).map fun s =>
      IOEvent.ask ("slot[" ++ s ++ "].interlock.state")

/-- Result of a switch-driver operation: the return/raise outcome, the
`UserWarning`s emitted, and the instrument traffic in order. -/
structure KOpResult where
  result : Except KError Unit
  warnings : List String
  io : List IOEvent

/-- Model of `reset_channel`: validate, then write `channel.reset`. -/
def reset_channel (cfg : KeithleyConfig) (val : String) : KOpResult :=
  if _validator cfg val then
    ⟨Except.ok (), [], _validator_io cfg ++ [IOEvent.write (resetCmd val)]⟩
  else
    ⟨Except.error (KError.invalidValue (invalidSpecifierMsg1 val)), [],
      _validator_io cfg⟩

/-- Model of `open_channel`: validate, then write `channel.open`. -/
def open_channel (cfg : KeithleyConfig) (val : String) : KOpResult :=
  if _validator cfg val then
    ⟨Except.ok (), [], _validator_io cfg ++ [IOEvent.write (openCmd val)]⟩
  else
    ⟨Except.error (KError.invalidValue (invalidSpecifierMsg1 val)), [],
      _validator_io cfg⟩

/-- Model of `get_forbidden_channels`: validate, then ask
`channel.getforbidden`; the response is `cfg.forbidden`. -/
def get_forbidden_channels (cfg : KeithleyConfig) (val : String) :
    Except KError String × List IOEvent :=
  if _validator cfg val then
    (Except.ok cfg.forbidden, _validator_io cfg ++ [IOEvent.ask (getForbiddenCmd val)])
  else
    (Except.error (KError.invalidValue (invalidSpecifierMsg1 val)), _validator_io cfg)

/-- Model of `close_channel`, in source order: compute the slot names and
the forbidden list (both query the instrument), reject whole-slot
specifiers, validate, warn (non-fatally) about forbidden channels, run the
interlock warning pass (which can itself raise), and finally write
`channel.close`. -/
def close_channel (cfg : KeithleyConfig) (val : String) : KOpResult :=
  let slots := "allslots" :: _get_slot_names cfg
  let fc := get_forbidden_channels cfg "allslots"
  let io0 := _get_slot_names_io ++ fc.2
  match fc.1 with
  | Except.error e => ⟨Except.error e, [], io0⟩
  | Except.ok forbidden_channels =>
    if val ∈ slots then
      ⟨Except.error (KError.invalidValue "Slots cannot be closed all together."),
        [], io0⟩
    else if ¬ _validator cfg val then
      ⟨Except.error (KError.invalidValue (invalidSpecifierMsg2 val)), [],
        io0 ++ _validator_io cfg⟩
    else
      let w1 := if val ∈ pySplitComma forbidden_channels then [forbiddenWarnMsg]
                else []
      let wl := _warn_on_disengaged_interlocks cfg val
      match wl.2 with
      | some e =>
        ⟨Except.error e, w1 ++ wl.1,
          io0 ++ _validator_io cfg ++ _get_interlock_state_io cfg⟩
      | none =>
        ⟨Except.ok (), w1 ++ wl.1,
          io0 ++ _validator_io cfg ++ _get_interlock_state_io cfg ++
            [IOEvent.write (closeCmd val)]⟩

/-- Model of `exclusive_close`: reject whole-slot and empty specifiers,
validate, then write `channel.exclusiveclose`. -/
def exclusive_close (cfg : KeithleyConfig) (val : String) : KOpResult :=
  let slots := "allslots" :: _get_slot_names cfg
  if val ∈ slots then
    ⟨Except.error (KError.invalidValue "Slots cannot be exclusively closed."),
      [], _get_slot_names_io⟩
  else if val = "" then
    ⟨Except.error (KError.invalidValue
        ("An empty string may cause all channels and associated backplane " ++
          "relays to open. Use \"open_channel\" parameter instead.")),
      [], _get_slot_names_io⟩
  else if ¬ _validator cfg val then
    ⟨Except.error (KError.invalidValue (invalidSpecifierMsg2 val)), [],
      _get_slot_names_io ++ _validator_io cfg⟩
  else
    ⟨Except.ok (), [], _get_slot_names_io ++ _validator_io cfg ++
      [IOEvent.write (exclusiveCloseCmd val)]⟩

/-- Predicate selecting `write` events. -/
def isWriteEvent : IOEvent → Bool
  | IOEvent.write _ => true
  | _ => false

/-- The state-changing commands among a traffic trace. -/
def writesOf (io : List IOEvent) : List IOEvent :=
  io.filter isWriteEvent

/-- A chassis holding a single `rows × cols` matrix card in slot 1, with
both interlocks engaged and nothing forbidden. -/
def cfgOneCard (rows cols : Nat) : KeithleyConfig :=
  { slotCard := fun i => if i = 1 then some (rows, cols) else none
    interlock := fun _ => InterlockState.s3
    forbidden := "" }

/-- A chassis holding a single 10-row, 1-column card in slot 1 whose
five-character channel `11001` is on the forbidden-to-close list. -/
def cfgTenRows : KeithleyConfig :=
  { slotCard := fun i => if i = 1 then some (10, 1) else none
    interlock := fun _ => InterlockState.s3
    forbidden := "11001" }

/-- A chassis holding a single 2 × 2 card in slot 1 with both interlocks
disengaged and the backplane relay `1911` forbidden. -/
def cfgDisengaged : KeithleyConfig :=
  { slotCard := fun i => if i = 1 then some (2, 2) else none
    interlock := fun _ => InterlockState.s0
    forbidden := "1911" }


theorem digitsVal_append_single (l : List Nat) (d : Nat) :
    digitsVal (l ++ [d]) = digitsVal l * 10 + (d - 48) := by
  simp [digitsVal, List.foldl_append]

theorem digitsVal_padDigits (k : Nat) : ∀ n : Nat,
    digitsVal (padDigits k n) = n % 10 ^ k := by
  induction k with
  | zero => intro n; simp [digitsVal, padDigits, Nat.mod_one]
  | succ k ih =>
    intro n
    have h1 : digitsVal (padDigits (k + 1) n)
        = digitsVal (padDigits k (n / 10)) * 10 + ((48 + n % 10) - 48) := by
      simp [padDigits, digitsVal_append_single]
    rw [h1, ih]
    have h2 : (10 : Nat) ^ (k + 1) = 10 * 10 ^ k := by ring
    rw [h2, Nat.mod_mul]
    omega

theorem padDigits_length (k : Nat) : ∀ n : Nat, (padDigits k n).length = k := by
  induction k with
  | zero => intro n; simp [padDigits]
  | succ k ih => intro n; simp [padDigits, ih]

theorem padDigits_all_digits (k : Nat) : ∀ n : Nat,
    (padDigits k n).all isDigitByte = true := by
  induction k with
  | zero => intro n; simp [padDigits]
  | succ k ih =>
    intro n
    have h9 : n % 10 < 10 := Nat.mod_lt _ (by omega)
    simp only [padDigits, List.all_append, ih, Bool.true_and, List.all_cons,
      List.all_nil, Bool.and_true]
    simp [isDigitByte]
    omega

theorem lengthHeader_length (n : Nat) : (lengthHeader n).length = 11 := by
  simp [lengthHeader, padDigits_length]

theorem lengthHeader_ascii (n : Nat) :
    ((lengthHeader n).all fun b => decide (b < 128)) = true := by
  have h := padDigits_all_digits 9 n
  simp only [List.all_eq_true] at h ⊢
  intro b hb
  simp only [lengthHeader, List.mem_cons] at hb
  rcases hb with rfl | rfl | hb
  · decide
  · decide
  · have := h b hb
    simp [isDigitByte] at this
    simp
    omega

theorem dropWhile_eq_nil_of_all {p : Nat → Bool} {l : List Nat}
    (h : l.all p = true) : l.dropWhile p = [] := by
  rw [List.dropWhile_eq_nil_iff]
  simpa [List.all_eq_true] using h


theorem stripBytes_dropWhile (l : List Nat) (h : stripBytes l = l) :
    l.dropWhile isSpaceByte = l := by
  have hsub1 : List.Sublist (l.dropWhile isSpaceByte) l := List.dropWhile_sublist _
  have hsub2 : List.Sublist (stripBytes l) (l.dropWhile isSpaceByte) := by
    unfold stripBytes
    have h3 : List.Sublist
        ((l.dropWhile isSpaceByte).reverse.dropWhile isSpaceByte)
        ((l.dropWhile isSpaceByte).reverse) := List.dropWhile_sublist _
    have h4 := h3.reverse
    simpa using h4
  have hlen1 : l.length ≤ (l.dropWhile isSpaceByte).length := by
    have h5 := hsub2.length_le
    rw [h] at h5
    exact h5
  exact hsub1.eq_of_length (Nat.le_antisymm hsub1.length_le hlen1)

theorem stripBytes_dropWhile_reverse (l : List Nat) (h : stripBytes l = l) :
    l.reverse.dropWhile isSpaceByte = l.reverse := by
  have hd := stripBytes_dropWhile l h
  have h2 : stripBytes l = (l.reverse.dropWhile isSpaceByte).reverse := by
    unfold stripBytes
    rw [hd]
  rw [h] at h2
  have h3 := congrArg List.reverse h2
  simpa using h3.symm

theorem stripBytes_payload_trailing (payload trailing : List Nat)
    (hp : stripBytes payload = payload)
    (ht : trailing.all isSpaceByte = true) :
    stripBytes (payload ++ trailing) = payload := by
  have hd := stripBytes_dropWhile payload hp
  have hr := stripBytes_dropWhile_reverse payload hp
  have htall : ∀ b ∈ trailing.reverse, isSpaceByte b := by
    intro b hb
    rw [List.mem_reverse] at hb
    exact (List.all_eq_true.mp ht) b hb
  cases payload with
  | nil =>
    unfold stripBytes
    simp only [List.nil_append]
    rw [dropWhile_eq_nil_of_all ht]
    simp
  | cons a l =>
    have ha : isSpaceByte a = false := by
      cases hx : isSpaceByte a with
      | false => rfl
      | true =>
        exfalso
        have h2 : List.dropWhile isSpaceByte (a :: l)
            = List.dropWhile isSpaceByte l := List.dropWhile_cons_of_pos hx
        rw [hd] at h2
        have h3 := (List.dropWhile_sublist (l := l) isSpaceByte).length_le
        rw [← h2] at h3
        simp only [List.length_cons] at h3
        omega
    unfold stripBytes
    have h1 : List.dropWhile isSpaceByte ((a :: l) ++ trailing)
        = (a :: l) ++ trailing := by
      rw [List.cons_append]
      exact List.dropWhile_cons_of_neg (by simp [ha])
    rw [h1, List.reverse_append, List.dropWhile_append_of_pos htall, hr]
    simp

theorem validate_eval (block : List Nat)
    (hascii : ((block.take 11).all fun b => decide (b < 128)) = true)
    (h11 : 11 ≤ block.length) (h2 : block.take 2 = [35, 57])
    (hdig : ((block.drop 2).take 9).all isDigitByte = true) :
    _validate_strip_block block =
      (if digitsVal ((block.drop 2).take 9) = (stripBytes (block.drop 11)).length
       then Except.ok (stripBytes (block.drop 11))
       else Except.error "Malformed data") := by
  unfold _validate_strip_block
  rw [hascii, if_neg (not_not_intro rfl), if_pos ⟨h11, h2, hdig⟩]

/-- Claim C1 (amended).  Round trip of `_validate_strip_block`: for a
payload that `bytes.strip()` leaves unchanged (its first and last bytes
are not ASCII whitespace) and any trailing whitespace, the block
`#9` + nine zero-padded length digits + payload + trailing whitespace is
stripped back to exactly the payload; and every block with a well-formed
header whose declared length differs from the stripped body length raises
`ValueError("Malformed data")`.  (The unamended claim, quantifying over
all payloads, fails when the payload itself starts or ends with
whitespace, because `bytes.strip()` removes bytes from both ends of the
body: see the counterexample.) -/
theorem claim_C1 (payload trailing : List Nat)
    (hp : stripBytes payload = payload)
    (hlen : payload.length < 10 ^ 9)
    (ht : trailing.all isSpaceByte = true) :
    _validate_strip_block (lengthHeader payload.length ++ payload ++ trailing)
      = Except.ok payload ∧
    ∀ block : List Nat, 11 ≤ block.length → block.take 2 = [35, 57] →
      ((block.drop 2).take 9).all isDigitByte = true →
      ((block.take 11).all fun b => decide (b < 128)) = true →
      digitsVal ((block.drop 2).take 9) ≠ (stripBytes (block.drop 11)).length →
      _validate_strip_block block = Except.error "Malformed data" := by
  constructor
  · have hassoc : lengthHeader payload.length ++ payload ++ trailing
        = lengthHeader payload.length ++ (payload ++ trailing) := by
      simp [List.append_assoc]
    rw [hassoc]
    have htake11 : (lengthHeader payload.length ++ (payload ++ trailing)).take 11
        = lengthHeader payload.length :=
      List.take_left' (lengthHeader_length _)
    have hdrop11 : (lengthHeader payload.length ++ (payload ++ trailing)).drop 11
        = payload ++ trailing :=
      List.drop_left' (lengthHeader_length _)
    have hlen11 : 11 ≤ (lengthHeader payload.length ++ (payload ++ trailing)).length := by
      rw [List.length_append, lengthHeader_length]
      omega
    have htake2 : (lengthHeader payload.length ++ (payload ++ trailing)).take 2
        = [35, 57] := by
      simp [lengthHeader]
    have hcons : lengthHeader payload.length ++ (payload ++ trailing)
        = 35 :: 57 :: (padDigits 9 payload.length ++ (payload ++ trailing)) := by
      simp [lengthHeader]
    have hdigits : ((lengthHeader payload.length ++ (payload ++ trailing)).drop 2).take 9
        = padDigits 9 payload.length := by
      rw [hcons]
      simp only [List.drop_succ_cons, List.drop_zero]
      exact List.take_left' (padDigits_length 9 _)
    have hascii : (((lengthHeader payload.length ++ (payload ++ trailing)).take 11).all
        fun b => decide (b < 128)) = true := by
      rw [htake11]
      exact lengthHeader_ascii _
    rw [validate_eval _ hascii hlen11 htake2 (by rw [hdigits]; exact padDigits_all_digits 9 _)]
    rw [hdigits, hdrop11, digitsVal_padDigits, Nat.mod_eq_of_lt hlen,
      stripBytes_payload_trailing payload trailing hp ht]
    rw [if_pos rfl]
  · intro block h11 htake2 hdig hascii hne
    rw [validate_eval block hascii h11 htake2 hdig, if_neg hne]

/-- Closed instantiation of `claim_C1`: payload `"ABC"` with trailing
newline and space round-trips, and a header declaring five bytes over a
two-byte body is rejected as malformed. -/
theorem claim_C1_witness :
    _validate_strip_block
        (lengthHeader (List.length [65, 66, 67]) ++ [65, 66, 67] ++ [10, 32])
      = Except.ok [65, 66, 67] ∧
    _validate_strip_block (35 :: 57 :: (padDigits 9 5 ++ [65, 66]))
      = Except.error "Malformed data" :=
  ⟨(claim_C1 [65, 66, 67] [10, 32] (by decide) (by decide) (by decide)).1,
   (claim_C1 [65, 66, 67] [10, 32] (by decide) (by decide) (by decide)).2
     (35 :: 57 :: (padDigits 9 5 ++ [65, 66]))
     (by decide) (by decide) (by decide) (by decide) (by decide)⟩

/-- Counterexample to claim C1 as stated: the one-byte payload consisting
of a single space, with a correctly declared length of one and no trailing
whitespace, is not returned unchanged — `bytes.strip()` removes it from
the body, the declared and stripped lengths disagree, and the call raises
`ValueError("Malformed data")`. -/
theorem claim_C1_counterexample :
    _validate_strip_block (lengthHeader (List.length [32]) ++ [32] ++ [])
        = Except.error "Malformed data" ∧
    _validate_strip_block (lengthHeader (List.length [32]) ++ [32] ++ [])
        ≠ Except.ok [32] := by
  constructor
  · rfl
  · intro h
    have h2 : (Except.error "Malformed data" : Except String (List Nat))
        = Except.ok [32] := by
      rw [← h]
      rfl
    exact Except.noConfusion h2

/-! ### Scope capture-path lemmas -/

theorem strippedAt_eq (dev : Device) (i : Nat) (b : List Nat)
    (h : _validate_strip_block (dev.blockAt i) = Except.ok b) :
    strippedAt dev i = b := by
  unfold strippedAt
  rw [h]

theorem readLoop_no_idle (dev : Device) : ∀ (fuel i : Nat) (acc : List Nat),
    (∀ j, j < fuel → statusHead dev (i + j) ≠ "IDLE") →
    (∀ j, j < fuel → ∃ b, _validate_strip_block (dev.blockAt (i + j)) = Except.ok b) →
    (readLoop dev fuel i acc).1
      = Except.error (ScopeError.valueError "Communication error") := by
  intro fuel
  induction fuel with
  | zero => intro i acc _ _; rfl
  | succ fuel ih =>
    intro i acc hstat hval
    obtain ⟨b, hb⟩ := hval 0 (Nat.succ_pos _)
    rw [Nat.add_zero] at hb
    have hs0 : ¬ statusHead dev i = "IDLE" := by
      have h0 := hstat 0 (Nat.succ_pos _)
      rwa [Nat.add_zero] at h0
    show (readLoop dev (fuel + 1) i acc).1 = _
    unfold readLoop
    rw [hb]
    simp only [if_neg hs0]
    exact ih (i + 1) (acc ++ b)
      (fun j hj => by
        have h1 := hstat (j + 1) (by omega)
        have heq : i + (j + 1) = i + 1 + j := by omega
        rwa [heq] at h1)
      (fun j hj => by
        have h1 := hval (j + 1) (by omega)
        have heq : i + (j + 1) = i + 1 + j := by omega
        rwa [heq] at h1)

theorem readLoop_idle (dev : Device) : ∀ (j0 : Nat), ∀ (fuel i : Nat) (acc : List Nat),
    j0 < fuel →
    statusHead dev (i + j0) = "IDLE" →
    (∀ j, j < j0 → statusHead dev (i + j) ≠ "IDLE") →
    (∀ j, j ≤ j0 → ∃ b, _validate_strip_block (dev.blockAt (i + j)) = Except.ok b) →
    (readLoop dev fuel i acc).1 = Except.ok (acc ++ chunksConcat dev i (j0 + 1)) := by
  intro j0
  induction j0 with
  | zero =>
    intro fuel i acc hfuel hidle _ hval
    obtain ⟨fuel', rfl⟩ : ∃ f, fuel = f + 1 := ⟨fuel - 1, by omega⟩
    obtain ⟨b, hb⟩ := hval 0 (Nat.le_refl _)
    rw [Nat.add_zero] at hb
    rw [Nat.add_zero] at hidle
    show (readLoop dev (fuel' + 1) i acc).1 = _
    unfold readLoop
    rw [hb]
    simp only [if_pos hidle]
    show Except.ok (acc ++ b) = _
    rw [show chunksConcat dev i 1 = strippedAt dev i ++ chunksConcat dev (i + 1) 0 from rfl,
      show chunksConcat dev (i + 1) 0 = [] from rfl, strippedAt_eq dev i b hb,
      List.append_nil]
  | succ j0 ih =>
    intro fuel i acc hfuel hidle hbefore hval
    obtain ⟨fuel', rfl⟩ : ∃ f, fuel = f + 1 := ⟨fuel - 1, by omega⟩
    obtain ⟨b, hb⟩ := hval 0 (by omega)
    rw [Nat.add_zero] at hb
    have hs0 : ¬ statusHead dev i = "IDLE" := by
      have h0 := hbefore 0 (Nat.succ_pos _)
      rwa [Nat.add_zero] at h0
    show (readLoop dev (fuel' + 1) i acc).1 = _
    unfold readLoop
    rw [hb]
    simp only [if_neg hs0]
    have hrec := ih fuel' (i + 1) (acc ++ b) (by omega)
      (by
        have heq : i + (j0 + 1) = i + 1 + j0 := by omega
        rwa [heq] at hidle)
      (fun j hj => by
        have h1 := hbefore (j + 1) (by omega)
        have heq : i + (j + 1) = i + 1 + j := by omega
        rwa [heq] at h1)
      (fun j hj => by
        have h1 := hval (j + 1) (by omega)
        have heq : i + (j + 1) = i + 1 + j := by omega
        rwa [heq] at h1)
    rw [hrec]
    rw [show chunksConcat dev i (j0 + 1 + 1)
        = strippedAt dev i ++ chunksConcat dev (i + 1) (j0 + 1) from rfl]
    rw [strippedAt_eq dev i b hb, List.append_assoc]

theorem get_raw_not_ready (st : ScopeState) (dev : Device)
    (h : st.trace_ready = false) :
    (get_raw st dev).result = Except.error ScopeError.traceNotReady ∧
    (get_raw st dev).io = [] := by
  unfold get_raw
  rw [h]
  exact ⟨rfl, rfl⟩

theorem get_raw_consumes (st : ScopeState) (dev : Device)
    (h : st.trace_ready = true) :
    (get_raw st dev).state.trace_ready = false := by
  unfold get_raw
  rw [h]
  simp only [if_true]
  split
  · split
    · rfl
    · rfl
  · split
    · rfl
    · rfl

theorem get_raw_raw_eval (st : ScopeState) (dev : Device)
    (hready : st.trace_ready = true) (hraw : st.raw = true) :
    (get_raw st dev).result
      = match (readLoop dev st.max_read_step 0 []).1 with
        | Except.error e => Except.error e
        | Except.ok bin => Except.ok (convertData st.preamble bin) := by
  unfold get_raw
  rw [hready]
  simp only [if_true]
  have hraw' : ({ st with trace_ready := false } : ScopeState).raw = true := hraw
  rw [if_pos hraw']
  split
  · rfl
  · rfl

theorem get_raw_ok_convert (st : ScopeState) (dev : Device) (d : List ℚ)
    (h : (get_raw st dev).result = Except.ok d) :
    ∃ bin, d = convertData st.preamble bin := by
  unfold get_raw at h
  by_cases hready : st.trace_ready = true
  · rw [hready] at h
    simp only [if_true] at h
    by_cases hraw : ({ st with trace_ready := false } : ScopeState).raw = true
    · rw [if_pos hraw] at h
      revert h
      split
      · intro h; exact Except.noConfusion h
      · intro h
        rename_i bin hbin
        exact ⟨bin, (Except.ok.inj h).symm⟩
    · rw [if_neg hraw] at h
      revert h
      split
      · intro h; exact Except.noConfusion h
      · intro h
        rename_i bin hbin
        exact ⟨bin, (Except.ok.inj h).symm⟩
  · have hf : st.trace_ready = false := by
      cases hx : st.trace_ready
      · rfl
      · exact absurd hx hready
    rw [hf] at h
    simp only [Bool.false_eq_true, if_false] at h
    exact Except.noConfusion h

theorem prepare_ok_parse (st : ScopeState) (dev : Device)
    (h : (prepare_curvedata st dev).result = Except.ok ()) :
    ∃ p, parsePreamble dev.preambleResp = some p := by
  cases hp : parsePreamble dev.preambleResp with
  | none =>
    exfalso
    unfold prepare_curvedata at h
    rw [hp] at h
    exact Except.noConfusion h
  | some p => exact ⟨p, rfl⟩

theorem prepare_curvedata_spec (st : ScopeState) (dev : Device) (p : Preamble)
    (hp : parsePreamble dev.preambleResp = some p) :
    (prepare_curvedata st dev).result = Except.ok () ∧
    (prepare_curvedata st dev).state.preamble = p ∧
    (prepare_curvedata st dev).state.shape = (pyInt p.points).toNat ∧
    (prepare_curvedata st dev).state.setpoints
      = linspace p.xorigin (p.xorigin + p.xincrement * p.points)
          ((pyInt p.points).toNat) ∧
    (prepare_curvedata st dev).state.trace_ready = true ∧
    (prepare_curvedata st dev).state.raw = st.raw ∧
    (prepare_curvedata st dev).state.max_read_step = st.max_read_step ∧
    IOEvent.ask ":WAVeform:PREamble?" ∈ (prepare_curvedata st dev).io := by
  unfold prepare_curvedata
  rw [hp]
  refine ⟨rfl, rfl, rfl, rfl, rfl, rfl, rfl, ?_⟩
  simp

/-- Claim C2.  `get_raw` on a state whose ready flag is unset raises
`RigolDS4000TraceNotReady` with no instrument traffic at all; a
`prepare_curvedata` call sets the flag, the next `get_raw` consumes it,
and a second `get_raw` without an intervening preparation again fails
with the not-ready error before any device communication. -/
theorem claim_C2 (st : ScopeState) (dev0 dev1 dev2 : Device)
    (hprep : (prepare_curvedata st dev0).result = Except.ok ()) :
    (st.trace_ready = false →
       (get_raw st dev1).result = Except.error ScopeError.traceNotReady ∧
       (get_raw st dev1).io = []) ∧
    (prepare_curvedata st dev0).state.trace_ready = true ∧
    (get_raw (prepare_curvedata st dev0).state dev1).state.trace_ready = false ∧
    (get_raw (get_raw (prepare_curvedata st dev0).state dev1).state dev2).result
      = Except.error ScopeError.traceNotReady ∧
    (get_raw (get_raw (prepare_curvedata st dev0).state dev1).state dev2).io = [] := by
  obtain ⟨p, hp⟩ := prepare_ok_parse st dev0 hprep
  have hspec := prepare_curvedata_spec st dev0 p hp
  have hready := hspec.2.2.2.2.1
  have hconsume := get_raw_consumes _ dev1 hready
  have hnr := get_raw_not_ready _ dev2 hconsume
  exact ⟨fun h => get_raw_not_ready st dev1 h, hready, hconsume, hnr.1, hnr.2⟩

/-- Closed instantiation of `claim_C2`: starting from the `__init__`
state, preparing once and retrieving twice makes the second retrieval
fail with the not-ready error. -/
theorem claim_C2_witness :
    (get_raw (get_raw (prepare_curvedata (scopeArrayInitState 1 true) devW).state
        devW).state devW).result = Except.error ScopeError.traceNotReady :=
  (claim_C2 (scopeArrayInitState 1 true) devW devW devW rfl).2.2.2.1

/-- Claim C3.  In raw mode the polling loop of `get_raw` is bounded by
`max_read_step` (set to 50 by `__init__`): if the first 50 status polls
never report `IDLE` (all blocks validating), the call raises
`ValueError("Communication error")` and returns no data; if poll `i0 < 50`
is the first to report `IDLE`, the call succeeds and returns exactly the
conversion of the `i0 + 1` stripped blocks read so far, in order. -/
theorem claim_C3 (st : ScopeState) (dev : Device)
    (hready : st.trace_ready = true) (hraw : st.raw = true)
    (hmax : st.max_read_step = 50)
    (hval : ∀ i, i < 50 → ∃ b, _validate_strip_block (dev.blockAt i) = Except.ok b) :
    (∀ c r, (scopeArrayInitState c r).max_read_step = 50) ∧
    ((∀ i, i < 50 → statusHead dev i ≠ "IDLE") →
       (get_raw st dev).result
         = Except.error (ScopeError.valueError "Communication error")) ∧
    (∀ i0, i0 < 50 → statusHead dev i0 = "IDLE" →
       (∀ j, j < i0 → statusHead dev j ≠ "IDLE") →
       (get_raw st dev).result
         = Except.ok (convertData st.preamble (chunksConcat dev 0 (i0 + 1)))) := by
  refine ⟨fun c r => rfl, ?_, ?_⟩
  · intro hstat
    rw [get_raw_raw_eval st dev hready hraw, hmax]
    rw [readLoop_no_idle dev 50 0 [] (fun j hj => by simpa using hstat j hj)
      (fun j hj => by simpa using hval j hj)]
  · intro i0 hi0 hidle hbefore
    rw [get_raw_raw_eval st dev hready hraw, hmax]
    rw [readLoop_idle dev i0 50 0 [] hi0 (by simpa using hidle)
      (fun j hj => by simpa using hbefore j hj)
      (fun j hj => by simpa using hval j (by omega))]
    rfl

/-- Closed instantiation of `claim_C3`: a device that becomes idle on the
second poll makes the raw read succeed with the two blocks read. -/
theorem claim_C3_witness :
    (get_raw stC3 devC3).result
      = Except.ok (convertData stC3.preamble (chunksConcat devC3 0 2)) :=
  (claim_C3 stC3 devC3 rfl rfl rfl (fun i hi => ⟨[1, 2], rfl⟩)).2.2 1 (by decide)
    (by decide) (by decide)

/-- Claim C4.  The voltage conversion of `get_raw` maps each accumulated
byte `b` to `((b : float) - yreference - yorigin) * yincrement`; being a
pure function of the byte buffer and the preamble, it is deterministic:
equal buffers convert to equal float arrays. -/
theorem claim_C4 (p : Preamble) (bin : List Nat) :
    convertData p bin
      = bin.map (fun b => ((b : ℚ) - p.yreference - p.yorigin) * p.yincrement) ∧
    ∀ bin2 : List Nat, bin = bin2 → convertData p bin = convertData p bin2 := by
  constructor
  · unfold convertData
    simp only [List.map_map]
    rfl
  · intro bin2 h
    rw [h]

/-- Closed instantiation of `claim_C4` at a concrete preamble and buffer. -/
theorem claim_C4_witness :
    convertData ⟨0, 0, 0, 0, 0, 0, 0, 1, 0, 0⟩ [1, 2]
      = convertData ⟨0, 0, 0, 0, 0, 0, 0, 1, 0, 0⟩ [1, 2] :=
  (claim_C4 ⟨0, 0, 0, 0, 0, 0, 0, 1, 0, 0⟩ [1, 2]).2 [1, 2] rfl

/-- Claim C9.  Every successful `prepare_curvedata` call stores the
preamble freshly parsed from this call's `:WAVeform:PREamble?` query
(which it always performs), recomputes the time-axis setpoints and sets
the trace shape to the preamble point count, and marks the trace ready;
any data a subsequent `get_raw` returns is converted with exactly that
preamble. -/
theorem claim_C9 (st : ScopeState) (dev : Device) (p : Preamble)
    (hp : parsePreamble dev.preambleResp = some p) :
    ((prepare_curvedata st dev).state.preamble = p ∧
     (prepare_curvedata st dev).state.shape = (pyInt p.points).toNat ∧
     (prepare_curvedata st dev).state.setpoints
       = linspace p.xorigin (p.xorigin + p.xincrement * p.points)
           ((pyInt p.points).toNat) ∧
     (prepare_curvedata st dev).state.trace_ready = true ∧
     IOEvent.ask ":WAVeform:PREamble?" ∈ (prepare_curvedata st dev).io) ∧
    ∀ (dev' : Device) (d : List ℚ),
      (get_raw (prepare_curvedata st dev).state dev').result = Except.ok d →
      ∃ bin, d = convertData p bin := by
  have hspec := prepare_curvedata_spec st dev p hp
  refine ⟨⟨hspec.2.1, hspec.2.2.1, hspec.2.2.2.1, hspec.2.2.2.2.1,
    hspec.2.2.2.2.2.2.2⟩, ?_⟩
  intro dev' d hd
  obtain ⟨bin, hbin⟩ := get_raw_ok_convert _ dev' d hd
  rw [hspec.2.1] at hbin
  exact ⟨bin, hbin⟩

/-- Closed instantiation of `claim_C9` at the all-zero ten-field
preamble. -/
theorem claim_C9_witness :
    (prepare_curvedata (scopeArrayInitState 2 false) devW).state.trace_ready = true :=
  (claim_C9 (scopeArrayInitState 2 false) devW ⟨0, 0, 0, 0, 0, 0, 0, 0, 0, 0⟩
    rfl).1.2.2.2.1

/-! ### Keithley 3706A lemmas -/

/-- Claim C5.  `_validator` succeeds exactly when every comma-separated
element of the specifier is one of the enumerated legal tokens (matrix
channels, channel ranges, `allslots` and the slot names, analog backplane
relays), and fails exactly when some element is outside that set. -/
theorem claim_C5 (cfg : KeithleyConfig) (val : String) :
    (_validator cfg val = true ↔ ∀ e ∈ pySplitComma val, e ∈ legalTokens cfg) ∧
    (_validator cfg val = false ↔ ∃ e ∈ pySplitComma val, e ∉ legalTokens cfg) := by
  have h1 : _validator cfg val = true ↔ ∀ e ∈ pySplitComma val, e ∈ legalTokens cfg := by
    simp [_validator, List.all_eq_true]
  refine ⟨h1, ?_⟩
  rw [← Bool.not_eq_true, h1]
  simp only [not_forall, Classical.not_imp]
  constructor
  · intro ⟨e, he, hne⟩
    exact ⟨e, he, hne⟩
  · intro ⟨e, he, hne⟩
    exact ⟨e, he, hne⟩

/-- Closed instantiation of `claim_C5`: with one 2 × 2 card in slot 1,
the specifier `"1101,1911"` (a channel and a backplane relay) validates. -/
theorem claim_C5_witness :
    _validator (cfgOneCard 2 2) "1101,1911" = true :=
  (claim_C5 (cfgOneCard 2 2) "1101,1911").1.mpr (by decide)

set_option maxRecDepth 8000 in
/-- Claim C10.  With a single installed card in slot 1 the backplane
specifiers are exactly `1911`–`1916`, whatever the card's row and column
counts; and with a 6 × 8 card, the invalid relay id `1971` fails
validation. -/
theorem claim_C10 :
    (∀ rows cols : Nat,
       get_analog_backplane_specifiers (cfgOneCard rows cols)
         = ["1911", "1912", "1913", "1914", "1915", "1916"]) ∧
    _validator (cfgOneCard 6 8) "1971" = false := by
  constructor
  · intro rows cols
    rfl
  · decide

theorem validator_allslots (cfg : KeithleyConfig) :
    _validator cfg "allslots" = true := by
  unfold _validator
  have h : pySplitComma "allslots" = ["allslots"] := rfl
  rw [h]
  simp only [List.all_cons, List.all_nil, Bool.and_true, decide_eq_true_eq]
  simp [legalTokens]

theorem forbidden_allslots (cfg : KeithleyConfig) :
    (get_forbidden_channels cfg "allslots").1 = Except.ok cfg.forbidden := by
  unfold get_forbidden_channels
  rw [if_pos (validator_allslots cfg)]

theorem no_write_append {a b : List IOEvent}
    (ha : ∀ e ∈ a, isWriteEvent e = false)
    (hb : ∀ e ∈ b, isWriteEvent e = false) :
    ∀ e ∈ a ++ b, isWriteEvent e = false := by
  intro e he
  rcases List.mem_append.mp he with h | h
  · exact ha e h
  · exact hb e h

theorem no_write_ask_map {α : Type} (l : List α) (f : α → String) :
    ∀ e ∈ (l.map fun x => IOEvent.ask (f x)), isWriteEvent e = false := by
  intro e he
  rw [List.mem_map] at he
  obtain ⟨x, _, rfl⟩ := he
  rfl

theorem no_write_slot_ids_io : ∀ e ∈ _get_slot_ids_io, isWriteEvent e = false := by
  intro e he
  unfold _get_slot_ids_io get_switch_cards_io at he
  exact no_write_ask_map _ _ e he

theorem no_write_slot_names_io : ∀ e ∈ _get_slot_names_io, isWriteEvent e = false := by
  intro e he
  unfold _get_slot_names_io at he
  exact no_write_slot_ids_io e he

theorem no_write_rows_io (cfg : KeithleyConfig) :
    ∀ e ∈ _get_number_of_rows_io cfg, isWriteEvent e = false := by
  unfold _get_number_of_rows_io
  exact no_write_append no_write_slot_ids_io (no_write_ask_map _ _)

theorem no_write_cols_io (cfg : KeithleyConfig) :
    ∀ e ∈ _get_number_of_columns_io cfg, isWriteEvent e = false := by
  unfold _get_number_of_columns_io
  exact no_write_append no_write_slot_ids_io (no_write_ask_map _ _)

theorem no_write_channels_io (cfg : KeithleyConfig) :
    ∀ e ∈ get_channels_io cfg, isWriteEvent e = false := by
  unfold get_channels_io _get_rows_io _get_columns_io
  exact no_write_append (no_write_append no_write_slot_ids_io (no_write_rows_io cfg))
    (no_write_cols_io cfg)

theorem no_write_by_slot_io (cfg : KeithleyConfig) :
    ∀ e ∈ get_channels_by_slot_io cfg, isWriteEvent e = false := by
  unfold get_channels_by_slot_io _get_rows_io _get_columns_io
  exact no_write_append (no_write_append no_write_slot_ids_io (no_write_rows_io cfg))
    (no_write_cols_io cfg)

theorem no_write_ranges_io (cfg : KeithleyConfig) :
    ∀ e ∈ _get_channel_ranges_io cfg, isWriteEvent e = false := by
  unfold _get_channel_ranges_io
  refine no_write_append no_write_slot_ids_io ?_
  intro e he
  rw [List.mem_flatMap] at he
  obtain ⟨x, _, hex⟩ := he
  exact no_write_by_slot_io cfg e hex

theorem no_write_validator_io (cfg : KeithleyConfig) :
    ∀ e ∈ _validator_io cfg, isWriteEvent e = false := by
  unfold _validator_io get_analog_backplane_specifiers_io
  exact no_write_append
    (no_write_append (no_write_append (no_write_channels_io cfg) (no_write_ranges_io cfg))
      no_write_slot_names_io)
    no_write_slot_ids_io

theorem no_write_interlock_io (cfg : KeithleyConfig) :
    ∀ e ∈ _get_interlock_state_io cfg, isWriteEvent e = false := by
  unfold _get_interlock_state_io
  exact no_write_append no_write_slot_ids_io (no_write_ask_map _ _)

theorem no_write_forbidden_io (cfg : KeithleyConfig) (val : String) :
    ∀ e ∈ (get_forbidden_channels cfg val).2, isWriteEvent e = false := by
  unfold get_forbidden_channels
  by_cases hv : _validator cfg val = true
  · rw [if_pos hv]
    refine no_write_append (no_write_validator_io cfg) ?_
    intro e he
    rw [List.mem_singleton] at he
    subst he
    rfl
  · rw [if_neg hv]
    exact no_write_validator_io cfg

theorem writesOf_eq_nil (io : List IOEvent)
    (h : ∀ e ∈ io, isWriteEvent e = false) : writesOf io = [] := by
  rw [writesOf, List.filter_eq_nil_iff]
  intro a ha
  rw [h a ha]
  simp

theorem writesOf_append (a b : List IOEvent) :
    writesOf (a ++ b) = writesOf a ++ writesOf b := by
  simp [writesOf, List.filter_append]

theorem writesOf_single_write (cmd : String) :
    writesOf [IOEvent.write cmd] = [IOEvent.write cmd] := rfl

theorem close_channel_slots (cfg : KeithleyConfig) (val : String)
    (h : val ∈ "allslots" :: _get_slot_names cfg) :
    close_channel cfg val =
      ⟨Except.error (KError.invalidValue "Slots cannot be closed all together."),
        [], _get_slot_names_io ++ (get_forbidden_channels cfg "allslots").2⟩ := by
  simp only [close_channel, forbidden_allslots]
  rw [if_pos h]

theorem close_channel_invalid (cfg : KeithleyConfig) (val : String)
    (h1 : val ∉ "allslots" :: _get_slot_names cfg)
    (h2 : _validator cfg val = false) :
    close_channel cfg val =
      ⟨Except.error (KError.invalidValue (invalidSpecifierMsg2 val)), [],
        (_get_slot_names_io ++ (get_forbidden_channels cfg "allslots").2) ++
          _validator_io cfg⟩ := by
  simp only [close_channel, forbidden_allslots]
  rw [if_neg h1, if_pos (by simp [h2])]

theorem close_channel_warn_err (cfg : KeithleyConfig) (val : String)
    (h1 : val ∉ "allslots" :: _get_slot_names cfg)
    (h2 : _validator cfg val = true) (e : KError)
    (hwl : (_warn_on_disengaged_interlocks cfg val).2 = some e) :
    close_channel cfg val =
      ⟨Except.error e,
        (if val ∈ pySplitComma cfg.forbidden then [forbiddenWarnMsg] else []) ++
          (_warn_on_disengaged_interlocks cfg val).1,
        (_get_slot_names_io ++ (get_forbidden_channels cfg "allslots").2) ++
          _validator_io cfg ++ _get_interlock_state_io cfg⟩ := by
  simp only [close_channel, forbidden_allslots]
  rw [if_neg h1, if_neg (by simp [h2]), hwl]

theorem close_channel_ok (cfg : KeithleyConfig) (val : String)
    (h1 : val ∉ "allslots" :: _get_slot_names cfg)
    (h2 : _validator cfg val = true)
    (hwl : (_warn_on_disengaged_interlocks cfg val).2 = none) :
    close_channel cfg val =
      ⟨Except.ok (),
        (if val ∈ pySplitComma cfg.forbidden then [forbiddenWarnMsg] else []) ++
          (_warn_on_disengaged_interlocks cfg val).1,
        ((_get_slot_names_io ++ (get_forbidden_channels cfg "allslots").2) ++
          _validator_io cfg ++ _get_interlock_state_io cfg) ++
            [IOEvent.write (closeCmd val)]⟩ := by
  simp only [close_channel, forbidden_allslots]
  rw [if_neg h1, if_neg (by simp [h2]), hwl]

/-- Claim C6 (amended).  For each switch-driver operation, a precondition
violation raises a host-side error before any device *write*: on an error
outcome no state-changing command at all has been sent, and in every case
at most one such command is sent — there is no retry.  (The unamended
claim said "before any device I/O"; validation itself queries the
instrument inventory first, so queries do occur before the error — see
the counterexample.) -/
theorem claim_C6 (cfg : KeithleyConfig) (val : String) :
    (∀ e, (reset_channel cfg val).result = Except.error e →
       writesOf (reset_channel cfg val).io = []) ∧
    (writesOf (reset_channel cfg val).io).length ≤ 1 ∧
    (∀ e, (open_channel cfg val).result = Except.error e →
       writesOf (open_channel cfg val).io = []) ∧
    (writesOf (open_channel cfg val).io).length ≤ 1 ∧
    (∀ e, (close_channel cfg val).result = Except.error e →
       writesOf (close_channel cfg val).io = []) ∧
    (writesOf (close_channel cfg val).io).length ≤ 1 ∧
    (∀ e, (exclusive_close cfg val).result = Except.error e →
       writesOf (exclusive_close cfg val).io = []) ∧
    (writesOf (exclusive_close cfg val).io).length ≤ 1 := by
  have hio0 : ∀ e ∈ _get_slot_names_io ++ (get_forbidden_channels cfg "allslots").2,
      isWriteEvent e = false :=
    no_write_append no_write_slot_names_io (no_write_forbidden_io cfg "allslots")
  refine ⟨?_, ?_, ?_, ?_, ?_, ?_, ?_, ?_⟩
  · intro e he
    unfold reset_channel at he ⊢
    by_cases hv : _validator cfg val = true
    · rw [if_pos hv] at he
      exact Except.noConfusion he
    · rw [if_neg hv]
      exact writesOf_eq_nil _ (no_write_validator_io cfg)
  · unfold reset_channel
    by_cases hv : _validator cfg val = true
    · rw [if_pos hv]
      show (writesOf (_validator_io cfg ++ [IOEvent.write (resetCmd val)])).length ≤ 1
      rw [writesOf_append, writesOf_eq_nil _ (no_write_validator_io cfg),
        writesOf_single_write]
      simp
    · rw [if_neg hv]
      show (writesOf (_validator_io cfg)).length ≤ 1
      rw [writesOf_eq_nil _ (no_write_validator_io cfg)]
      simp
  · intro e he
    unfold open_channel at he ⊢
    by_cases hv : _validator cfg val = true
    · rw [if_pos hv] at he
      exact Except.noConfusion he
    · rw [if_neg hv]
      exact writesOf_eq_nil _ (no_write_validator_io cfg)
  · unfold open_channel
    by_cases hv : _validator cfg val = true
    · rw [if_pos hv]
      show (writesOf (_validator_io cfg ++ [IOEvent.write (openCmd val)])).length ≤ 1
      rw [writesOf_append, writesOf_eq_nil _ (no_write_validator_io cfg),
        writesOf_single_write]
      simp
    · rw [if_neg hv]
      show (writesOf (_validator_io cfg)).length ≤ 1
      rw [writesOf_eq_nil _ (no_write_validator_io cfg)]
      simp
  · intro e he
    by_cases h1 : val ∈ "allslots" :: _get_slot_names cfg
    · rw [close_channel_slots cfg val h1]
      exact writesOf_eq_nil _ hio0
    · by_cases h2 : _validator cfg val = true
      · cases hwl : (_warn_on_disengaged_interlocks cfg val).2 with
        | none =>
          rw [close_channel_ok cfg val h1 h2 hwl] at he
          exact Except.noConfusion he
        | some e2 =>
          rw [close_channel_warn_err cfg val h1 h2 e2 hwl]
          exact writesOf_eq_nil _
            (no_write_append (no_write_append hio0 (no_write_validator_io cfg))
              (no_write_interlock_io cfg))
      · have h2f : _validator cfg val = false := by
          cases hx : _validator cfg val
          · rfl
          · exact absurd hx h2
        rw [close_channel_invalid cfg val h1 h2f]
        exact writesOf_eq_nil _ (no_write_append hio0 (no_write_validator_io cfg))
  · by_cases h1 : val ∈ "allslots" :: _get_slot_names cfg
    · rw [close_channel_slots cfg val h1]
      show (writesOf (_get_slot_names_io ++ (get_forbidden_channels cfg "allslots").2)).length ≤ 1
      rw [writesOf_eq_nil _ hio0]
      simp
    · by_cases h2 : _validator cfg val = true
      · cases hwl : (_warn_on_disengaged_interlocks cfg val).2 with
        | none =>
          rw [close_channel_ok cfg val h1 h2 hwl]
          show (writesOf (((_get_slot_names_io ++ (get_forbidden_channels cfg "allslots").2) ++
            _validator_io cfg ++ _get_interlock_state_io cfg) ++
              [IOEvent.write (closeCmd val)])).length ≤ 1
          rw [writesOf_append, writesOf_eq_nil _
            (no_write_append (no_write_append hio0 (no_write_validator_io cfg))
              (no_write_interlock_io cfg)), writesOf_single_write]
          simp
        | some e2 =>
          rw [close_channel_warn_err cfg val h1 h2 e2 hwl]
          show (writesOf ((_get_slot_names_io ++ (get_forbidden_channels cfg "allslots").2) ++
            _validator_io cfg ++ _get_interlock_state_io cfg)).length ≤ 1
          rw [writesOf_eq_nil _
            (no_write_append (no_write_append hio0 (no_write_validator_io cfg))
              (no_write_interlock_io cfg))]
          simp
      · have h2f : _validator cfg val = false := by
          cases hx : _validator cfg val
          · rfl
          · exact absurd hx h2
        rw [close_channel_invalid cfg val h1 h2f]
        show (writesOf ((_get_slot_names_io ++ (get_forbidden_channels cfg "allslots").2) ++
          _validator_io cfg)).length ≤ 1
        rw [writesOf_eq_nil _ (no_write_append hio0 (no_write_validator_io cfg))]
        simp
  · intro e he
    simp only [exclusive_close] at he ⊢
    by_cases h1 : val ∈ "allslots" :: _get_slot_names cfg
    · rw [if_pos h1]
      exact writesOf_eq_nil _ no_write_slot_names_io
    · rw [if_neg h1] at he ⊢
      by_cases h2 : val = ""
      · rw [if_pos h2]
        exact writesOf_eq_nil _ no_write_slot_names_io
      · rw [if_neg h2] at he ⊢
        by_cases h3 : _validator cfg val = true
        · rw [if_neg (by simp [h3])] at he
          exact Except.noConfusion he
        · rw [if_pos (by simp [h3])]
          exact writesOf_eq_nil _
            (no_write_append no_write_slot_names_io (no_write_validator_io cfg))
  · simp only [exclusive_close]
    by_cases h1 : val ∈ "allslots" :: _get_slot_names cfg
    · rw [if_pos h1]
      show (writesOf _get_slot_names_io).length ≤ 1
      rw [writesOf_eq_nil _ no_write_slot_names_io]
      simp
    · rw [if_neg h1]
      by_cases h2 : val = ""
      · rw [if_pos h2]
        show (writesOf _get_slot_names_io).length ≤ 1
        rw [writesOf_eq_nil _ no_write_slot_names_io]
        simp
      · rw [if_neg h2]
        by_cases h3 : _validator cfg val = true
        · rw [if_neg (by simp [h3])]
          show (writesOf ((_get_slot_names_io ++ _validator_io cfg) ++
            [IOEvent.write (exclusiveCloseCmd val)])).length ≤ 1
          rw [writesOf_append, writesOf_eq_nil _
            (no_write_append no_write_slot_names_io (no_write_validator_io cfg)),
            writesOf_single_write]
          simp
        · rw [if_pos (by simp [h3])]
          show (writesOf (_get_slot_names_io ++ _validator_io cfg)).length ≤ 1
          rw [writesOf_eq_nil _
            (no_write_append no_write_slot_names_io (no_write_validator_io cfg))]
          simp

/-- Closed instantiation of `claim_C6`: an invalid close specifier sends
no state-changing command. -/
theorem claim_C6_witness :
    writesOf (close_channel (cfgOneCard 2 2) "zzz").io = [] :=
  (claim_C6 (cfgOneCard 2 2) "zzz").2.2.2.2.1
    (KError.invalidValue (invalidSpecifierMsg2 "zzz")) rfl

set_option maxRecDepth 8000 in
/-- Counterexample to claim C6 as stated: `close_channel` on the invalid
specifier `"zzz"` raises the host-side invalid-value error, but the
instrument traffic before the error is not empty — the slot-name and
forbidden-channel inventory queries have already been asked, so the error
is not raised "before any device I/O" (only before any write). -/
theorem claim_C6_counterexample :
    (close_channel (cfgOneCard 2 2) "zzz").result
      = Except.error (KError.invalidValue (invalidSpecifierMsg2 "zzz")) ∧
    (close_channel (cfgOneCard 2 2) "zzz").io ≠ [] := by
  constructor
  · rfl
  · decide

theorem validator_true_iff (cfg : KeithleyConfig) (val : String) :
    _validator cfg val = true ↔ ∀ e ∈ pySplitComma val, e ∈ legalTokens cfg := by
  simp [_validator, List.all_eq_true]

theorem natToString_lt10 (i : Nat) (h : i < 10) :
    natToString i = String.mk [Char.ofNat (48 + i)] := by
  unfold natToString natToDigitsAux
  rw [if_pos h]

theorem natToDigitsAux_len_pos (fuel n : Nat) :
    1 ≤ (natToDigitsAux (fuel + 1) n).length := by
  unfold natToDigitsAux
  by_cases h : n < 10
  · rw [if_pos h]
    simp
  · rw [if_neg h]
    simp

theorem natToString_len_pos (n : Nat) : 1 ≤ (natToString n).length :=
  natToDigitsAux_len_pos n n

theorem pad2_len (i : Nat) : 2 ≤ (pad2 i).length := by
  unfold pad2
  by_cases h : i < 10
  · rw [if_pos h, String.length_append]
    have h1 := natToString_len_pos i
    have h2 : ("0" : String).length = 1 := rfl
    omega
  · rw [if_neg h]
    obtain ⟨f, rfl⟩ : ∃ f, i = f + 1 := ⟨i - 1, by omega⟩
    unfold natToString natToDigitsAux
    rw [if_neg h]
    show 2 ≤ (natToDigitsAux (f + 1) ((f + 1) / 10) ++
      [Char.ofNat (48 + (f + 1) % 10)]).length
    rw [List.length_append]
    have := natToDigitsAux_len_pos f ((f + 1) / 10)
    simp only [List.length_cons, List.length_nil]
    omega

theorem firstCharStr_eq (s : String) (c : Char) (l : List Char)
    (h : s.toList = c :: l) : firstCharStr s = String.mk [c] := by
  unfold firstCharStr
  rw [h]

theorem firstCharStr_slot (i : Nat) (hi : i < 10) (b c : String) :
    firstCharStr ((natToString i ++ b) ++ c) = natToString i := by
  rw [natToString_lt10 i hi]
  exact firstCharStr_eq _ (Char.ofNat (48 + i)) (b.data ++ c.data)
    (by simp [String.toList])

theorem headD_nil_or_mem {α : Type} (l : List (List α)) :
    l.headD [] = [] ∨ l.headD [] ∈ l := by
  cases l with
  | nil => exact Or.inl rfl
  | cons a t => exact Or.inr (List.mem_cons_self _ _)

theorem rows_elem (cfg : KeithleyConfig) (L : List String)
    (hL : L ∈ _get_rows cfg) (r : String) (hr : r ∈ L) :
    ∃ j, r = natToString j := by
  simp only [_get_rows, List.mem_map] at hL
  obtain ⟨item, _, rfl⟩ := hL
  rw [List.mem_map] at hr
  obtain ⟨j, _, rfl⟩ := hr
  exact ⟨j, rfl⟩

theorem cols_elem (cfg : KeithleyConfig) (L : List String)
    (hL : L ∈ _get_columns cfg) (col : String) (hcol : col ∈ L) :
    ∃ j, col = pad2 j := by
  simp only [_get_columns, List.mem_map] at hL
  obtain ⟨item, _, rfl⟩ := hL
  rw [List.mem_map] at hcol
  obtain ⟨j, _, rfl⟩ := hcol
  exact ⟨j, rfl⟩

theorem bySlot_token_len (cfg : KeithleyConfig) (slot : Nat) (t : String)
    (ht : t ∈ channelsBySlotTokens cfg slot) : 4 ≤ t.length := by
  simp only [channelsBySlotTokens, List.mem_flatMap, List.mem_map] at ht
  obtain ⟨r, hr, col, hcol, rfl⟩ := ht
  have hrlen : 1 ≤ r.length := by
    rcases headD_nil_or_mem (_get_rows cfg) with h | h
    · rw [h] at hr
      cases hr
    · obtain ⟨j, rfl⟩ := rows_elem cfg _ h r hr
      exact natToString_len_pos j
  have hcollen : 2 ≤ col.length := by
    rcases headD_nil_or_mem (_get_columns cfg) with h | h
    · rw [h] at hcol
      cases hcol
    · obtain ⟨j, rfl⟩ := cols_elem cfg _ h col hcol
      exact pad2_len j
  rw [String.length_append, String.length_append]
  have := natToString_len_pos slot
  omega

theorem combinations2_mem {α : Type} :
    ∀ (l : List α) (p : α × α), p ∈ combinations2 l → p.1 ∈ l ∧ p.2 ∈ l := by
  intro l
  induction l with
  | nil => intro p hp; cases hp
  | cons x xs ih =>
    intro p hp
    simp only [combinations2, List.mem_append, List.mem_map] at hp
    rcases hp with ⟨y, hy, rfl⟩ | hp
    · exact ⟨List.mem_cons_self _ _, List.mem_cons_of_mem _ hy⟩
    · obtain ⟨h1, h2⟩ := ih p hp
      exact ⟨List.mem_cons_of_mem _ h1, List.mem_cons_of_mem _ h2⟩

theorem cards_slot_no (cfg : KeithleyConfig) (c : SwitchCard)
    (hc : c ∈ get_switch_cards cfg) : c.slot_no < 10 := by
  simp only [get_switch_cards, List.mem_filterMap] at hc
  obtain ⟨i, hi, hmap⟩ := hc
  rw [Option.map_eq_some'] at hmap
  obtain ⟨rc, _, rfl⟩ := hmap
  rw [List.mem_range'_1] at hi
  show i < 10
  omega

theorem interlock_find_isSome (cfg : KeithleyConfig) (s : String)
    (hs : s ∈ _get_slot_ids cfg) :
    ((get_interlock_state cfg).find? (fun p => p.1 == s)).isSome = true := by
  simp only [List.find?_isSome]
  simp only [_get_slot_ids, List.mem_map] at hs
  obtain ⟨c, hc, rfl⟩ := hs
  refine ⟨(natToString c.slot_no, interlockMessage (cfg.interlock c.slot_no)), ?_, ?_⟩
  · simp only [get_interlock_state, List.mem_map]
    exact ⟨c, hc, rfl⟩
  · simp

theorem legal_len4_find (cfg : KeithleyConfig) (e : String)
    (he : e ∈ legalTokens cfg) (hlen : e.length = 4) :
    ((get_interlock_state cfg).find? (fun p => p.1 == firstCharStr e)).isSome = true := by
  have hfind : ∀ c : SwitchCard, c ∈ get_switch_cards cfg →
      ∀ b2 c2 : String, e = (natToString c.slot_no ++ b2) ++ c2 →
      ((get_interlock_state cfg).find? (fun p => p.1 == firstCharStr e)).isSome
        = true := by
    intro c hc b2 c2 he2
    have hi : c.slot_no < 10 := cards_slot_no cfg c hc
    rw [he2, firstCharStr_slot c.slot_no hi b2 c2]
    exact interlock_find_isSome cfg _ (List.mem_map.mpr ⟨c, hc, rfl⟩)
  unfold legalTokens at he
  rcases List.mem_append.mp he with he1 | he4
  · rcases List.mem_append.mp he1 with he2 | he3
    · rcases List.mem_append.mp he2 with hch | hrg
      · simp only [get_channels, cardChannels, List.mem_flatMap, List.mem_map] at hch
        obtain ⟨c, hc, r, hr, col, hcol, rfl⟩ := hch
        exact hfind c hc _ _ rfl
      · exfalso
        simp only [_get_channel_ranges, List.mem_flatMap, List.mem_map] at hrg
        obtain ⟨c, hc, p, hp, rfl⟩ := hrg
        obtain ⟨h1, h2⟩ := combinations2_mem _ p hp
        have l1 := bySlot_token_len cfg c.slot_no p.1 h1
        have l2 := bySlot_token_len cfg c.slot_no p.2 h2
        rw [String.length_append, String.length_append] at hlen
        have hcolon : (":" : String).length = 1 := rfl
        omega
    · exfalso
      rcases List.mem_cons.mp he3 with rfl | hsn
      · exact absurd hlen (by decide)
      · simp only [_get_slot_names, List.mem_map] at hsn
        obtain ⟨s, hs, rfl⟩ := hsn
        simp only [_get_slot_ids, List.mem_map] at hs
        obtain ⟨c, hc, rfl⟩ := hs
        rw [String.length_append] at hlen
        have h1 := natToString_len_pos c.slot_no
        have h2 : ("slot" : String).length = 4 := rfl
        omega
  · simp only [get_analog_backplane_specifiers, List.mem_flatMap, List.mem_map] at he4
    obtain ⟨s, hs, rr, hrr, rfl⟩ := he4
    simp only [_get_slot_ids, List.mem_map] at hs
    obtain ⟨c, hc, rfl⟩ := hs
    exact hfind c hc _ _ rfl

theorem warnLoop_err (states : List (String × String)) :
    ∀ es : List String,
    (∀ e ∈ es, e.length = 4 →
       ((states.find? (fun p => p.1 == firstCharStr e)).isSome = true)) →
    (∃ e ∈ es, e.length ≠ 4) →
    ∃ b ∈ es, b.length ≠ 4 ∧
      (warnLoopAux states es).2
        = some (KError.invalidValue (b ++ " is not a valid channel id")) := by
  intro es
  induction es with
  | nil =>
    intro _ hbad
    obtain ⟨e, he, _⟩ := hbad
    cases he
  | cons e rest ih =>
    intro hfind hbad
    by_cases hlen : e.length = 4
    · have hbp : _is_backplane_channel e = Except.ok (sndCharIs9 e) := by
        unfold _is_backplane_channel
        rw [if_neg (by simp [hlen])]
      have hbadrest : ∃ b ∈ rest, b.length ≠ 4 := by
        obtain ⟨b, hb, hbl⟩ := hbad
        rcases List.mem_cons.mp hb with rfl | hb2
        · exact absurd hlen hbl
        · exact ⟨b, hb2, hbl⟩
      have hfindrest : ∀ b ∈ rest, b.length = 4 →
          ((states.find? (fun p => p.1 == firstCharStr b)).isSome = true) :=
        fun b hb => hfind b (List.mem_cons_of_mem _ hb)
      obtain ⟨b, hb, hbl, hres⟩ := ih hfindrest hbadrest
      cases h9 : sndCharIs9 e with
      | false =>
        rw [h9] at hbp
        refine ⟨b, List.mem_cons_of_mem _ hb, hbl, ?_⟩
        show (warnLoopAux states (e :: rest)).2 = _
        unfold warnLoopAux
        rw [hbp]
        exact hres
      | true =>
        rw [h9] at hbp
        have hiss := hfind e (List.mem_cons_self _ _) hlen
        obtain ⟨st, hst⟩ := Option.isSome_iff_exists.mp hiss
        refine ⟨b, List.mem_cons_of_mem _ hb, hbl, ?_⟩
        show (warnLoopAux states (e :: rest)).2 = _
        unfold warnLoopAux
        rw [hbp, hst]
        exact hres
    · refine ⟨e, List.mem_cons_self _ _, hlen, ?_⟩
      have hbp : _is_backplane_channel e
          = Except.error (KError.invalidValue (e ++ " is not a valid channel id")) := by
        unfold _is_backplane_channel
        rw [if_pos (by simp [hlen])]
      show (warnLoopAux states (e :: rest)).2 = _
      unfold warnLoopAux
      rw [hbp]

theorem warnLoop_ok (states : List (String × String)) :
    ∀ es : List String,
    (∀ e ∈ es, e.length = 4) →
    (∀ e ∈ es, ((states.find? (fun p => p.1 == firstCharStr e)).isSome = true)) →
    (warnLoopAux states es).2 = none ∧
    ∀ e ∈ es, ∀ st, sndCharIs9 e = true →
      states.find? (fun p => p.1 == firstCharStr e) = some st →
      st.2 = interlockMessage InterlockState.s0 →
      interlockWarnMsg st.1 e ∈ (warnLoopAux states es).1 := by
  intro es
  induction es with
  | nil =>
    intro _ _
    exact ⟨rfl, fun e he => absurd he (by simp)⟩
  | cons e rest ih =>
    intro hlen hfind
    have hle : e.length = 4 := hlen e (List.mem_cons_self _ _)
    have hbp : _is_backplane_channel e = Except.ok (sndCharIs9 e) := by
      unfold _is_backplane_channel
      rw [if_neg (by simp [hle])]
    obtain ⟨ihnone, ihmem⟩ := ih (fun b hb => hlen b (List.mem_cons_of_mem _ hb))
      (fun b hb => hfind b (List.mem_cons_of_mem _ hb))
    cases h9 : sndCharIs9 e with
    | false =>
      rw [h9] at hbp
      have hred : warnLoopAux states (e :: rest) = warnLoopAux states rest := by
        simp only [warnLoopAux, hbp]
      rw [hred]
      refine ⟨ihnone, ?_⟩
      intro b hb st h9b hfb hdis
      rcases List.mem_cons.mp hb with rfl | hb2
      · rw [h9b] at h9
        exact Bool.noConfusion h9
      · exact ihmem b hb2 st h9b hfb hdis
    | true =>
      rw [h9] at hbp
      have hiss := hfind e (List.mem_cons_self _ _)
      obtain ⟨st0, hst0⟩ := Option.isSome_iff_exists.mp hiss
      have hred : warnLoopAux states (e :: rest)
          = ((if st0.2 = interlockMessage InterlockState.s0
              then [interlockWarnMsg st0.1 e] else []) ++ (warnLoopAux states rest).1,
             (warnLoopAux states rest).2) := by
        simp only [warnLoopAux, hbp, hst0]
      rw [hred]
      refine ⟨ihnone, ?_⟩
      intro b hb st h9b hfb hdis
      rcases List.mem_cons.mp hb with rfl | hb2
      · rw [hst0] at hfb
        have hst : st0 = st := Option.some.inj hfb
        subst hst
        rw [if_pos hdis]
        exact List.mem_append_left _ (List.mem_cons_self _ _)
      · exact List.mem_append_right _ (ihmem b hb2 st h9b hfb hdis)

/-- Claim C7.  `close_channel` raises `Keithley3706AInvalidValue` for
every specifier containing a comma-separated element whose length is not
exactly four characters — in particular every channel-range element
`NNNN:NNNN` — because even when the specifier passes the validator, the
interlock-warning pass classifies each element with
`_is_backplane_channel`, which rejects any id that is not four characters
long.  (Specifiers caught earlier, by the whole-slot check or the
validator, also raise `Keithley3706AInvalidValue`.) -/
theorem claim_C7 (cfg : KeithleyConfig) (val : String)
    (h : ∃ e ∈ pySplitComma val, e.length ≠ 4) :
    ∃ msg, (close_channel cfg val).result
      = Except.error (KError.invalidValue msg) := by
  by_cases h1 : val ∈ "allslots" :: _get_slot_names cfg
  · exact ⟨"Slots cannot be closed all together.",
      by rw [close_channel_slots cfg val h1]⟩
  · by_cases h2 : _validator cfg val = true
    · have hleg := (validator_true_iff cfg val).mp h2
      have hfind : ∀ e ∈ pySplitComma val, e.length = 4 →
          ((get_interlock_state cfg).find?
            (fun p => p.1 == firstCharStr e)).isSome = true :=
        fun e he hlen => legal_len4_find cfg e (hleg e he) hlen
      obtain ⟨b, _, _, hres⟩ :=
        warnLoop_err (get_interlock_state cfg) (pySplitComma val) hfind h
      have hwl : (_warn_on_disengaged_interlocks cfg val).2
          = some (KError.invalidValue (b ++ " is not a valid channel id")) := hres
      exact ⟨b ++ " is not a valid channel id",
        by rw [close_channel_warn_err cfg val h1 h2 _ hwl]⟩
    · have h2f : _validator cfg val = false := by
        cases hx : _validator cfg val
        · rfl
        · exact absurd hx h2
      exact ⟨invalidSpecifierMsg2 val,
        by rw [close_channel_invalid cfg val h1 h2f]⟩

/-- Closed instantiation of `claim_C7`: the channel range `1101:1102`,
which the validator accepts on a 2 × 2 card, is rejected by
`close_channel` with a `Keithley3706AInvalidValue`. -/
theorem claim_C7_witness :
    (∃ e ∈ pySplitComma "1101:1102", e.length ≠ 4) ∧
    ∃ msg, (close_channel (cfgOneCard 2 2) "1101:1102").result
      = Except.error (KError.invalidValue msg) :=
  ⟨by decide, claim_C7 (cfgOneCard 2 2) "1101:1102" (by decide)⟩

/-- Claim C8 (amended).  For a specifier all of whose comma-separated
elements are four-character ids (and which passes the validator and is
not a whole slot), the advisory conditions are non-blocking: the close
succeeds and the `channel.close` command is among the traffic, a
forbidden-list hit only adds a `UserWarning`, and a backplane element
whose slot reports both interlocks disengaged only adds a `UserWarning`.
(The unamended claim, for arbitrary forbidden channels, fails on a
five-character channel id of a 10-row card: the warning is emitted but
the close is blocked — see the counterexample.) -/
theorem claim_C8 (cfg : KeithleyConfig) (val : String)
    (hs : val ∉ "allslots" :: _get_slot_names cfg)
    (hv : _validator cfg val = true)
    (h4 : ∀ e ∈ pySplitComma val, e.length = 4) :
    (close_channel cfg val).result = Except.ok () ∧
    IOEvent.write (closeCmd val) ∈ (close_channel cfg val).io ∧
    (val ∈ pySplitComma cfg.forbidden →
       forbiddenWarnMsg ∈ (close_channel cfg val).warnings) ∧
    (∀ e ∈ pySplitComma val, ∀ st, sndCharIs9 e = true →
       (get_interlock_state cfg).find? (fun p => p.1 == firstCharStr e) = some st →
       st.2 = interlockMessage InterlockState.s0 →
       interlockWarnMsg st.1 e ∈ (close_channel cfg val).warnings) := by
  have hleg := (validator_true_iff cfg val).mp hv
  have hfind : ∀ e ∈ pySplitComma val,
      ((get_interlock_state cfg).find?
        (fun p => p.1 == firstCharStr e)).isSome = true :=
    fun e he => legal_len4_find cfg e (hleg e he) (h4 e he)
  obtain ⟨hnone, hmem⟩ :=
    warnLoop_ok (get_interlock_state cfg) (pySplitComma val) h4 hfind
  have hwl : (_warn_on_disengaged_interlocks cfg val).2 = none := hnone
  rw [close_channel_ok cfg val hs hv hwl]
  refine ⟨rfl, ?_, ?_, ?_⟩
  · show IOEvent.write (closeCmd val) ∈ _ ++ [IOEvent.write (closeCmd val)]
    exact List.mem_append_right _ (List.mem_cons_self _ _)
  · intro hf
    show forbiddenWarnMsg ∈
      (if val ∈ pySplitComma cfg.forbidden then [forbiddenWarnMsg] else []) ++
        (_warn_on_disengaged_interlocks cfg val).1
    rw [if_pos hf]
    exact List.mem_append_left _ (List.mem_cons_self _ _)
  · intro e he st h9 hfb hdis
    show interlockWarnMsg st.1 e ∈
      (if val ∈ pySplitComma cfg.forbidden then [forbiddenWarnMsg] else []) ++
        (_warn_on_disengaged_interlocks cfg val).1
    exact List.mem_append_right _ (hmem e he st h9 hfb hdis)

/-- Closed instantiation of `claim_C8`: closing the forbidden backplane
relay `1911` on a slot with both interlocks disengaged emits both
warnings and still sends the close command (result is success). -/
theorem claim_C8_witness :
    (close_channel cfgDisengaged "1911").result = Except.ok () ∧
    forbiddenWarnMsg ∈ (close_channel cfgDisengaged "1911").warnings ∧
    interlockWarnMsg "1" "1911" ∈ (close_channel cfgDisengaged "1911").warnings :=
  ⟨(claim_C8 cfgDisengaged "1911" (by decide) (by decide) (by decide)).1,
   (claim_C8 cfgDisengaged "1911" (by decide) (by decide) (by decide)).2.2.1
     (by decide),
   (claim_C8 cfgDisengaged "1911" (by decide) (by decide) (by decide)).2.2.2
     "1911" (by decide) ("1", interlockMessage InterlockState.s0) (by decide)
     (by decide) rfl⟩

set_option maxRecDepth 8000 in
/-- Counterexample to claim C8 as stated: on a 10-row card the channel
`11001` is legal and on the forbidden list; `close_channel` emits the
forbidden-channel `UserWarning` but then the interlock-warning pass
raises `Keithley3706AInvalidValue` on the five-character id, so the
operation is blocked and no `channel.close` command is sent. -/
theorem claim_C8_counterexample :
    (close_channel cfgTenRows "11001").warnings = [forbiddenWarnMsg] ∧
    (close_channel cfgTenRows "11001").result
      = Except.error (KError.invalidValue "11001 is not a valid channel id") ∧
    writesOf (close_channel cfgTenRows "11001").io = [] := by
  refine ⟨rfl, rfl, rfl⟩
